import Mathlib

/-!
Verification of the frame classifier and assembler of
scripts/sct_dmri_separate_b0_and_dwi.py.

The classifier (identify_b0) reads a gradient-direction table (bvecs) and
optionally a b-value table (bvals) and splits the frame indices 0..N-1 into
a b=0 list and a DWI list.  The assembler in main() then regroups the frames
of a 4-D volume according to those index lists.

Numeric values are embedded as exact rationals; Python floats are modelled
exactly, so strict comparisons against the thresholds 0.01 and bval_min are
faithful at every input whose decimal literal is exactly representable.
-/

namespace SctDmriSeparate

/-- Sum of squared components of a gradient vector: the value
    math.fsum([i**2 for i in bvecs[it]]) computed by identify_b0. -/
def sumSq (v : List ℚ) : ℚ := (v.map (fun x => x * x)).sum

/-- The b=0 test of the no-bvals branch.  The source computes
    math.sqrt(math.fsum([i**2 for i in bvecs[it]])) < 0.01; since the square
    root is monotone and 0.01 > 0 this holds exactly when the sum of squares
    is below 0.01^2 = 1/10000, which is how it is decided here. -/
def vecIsB0 (v : List ℚ) : Bool := decide (sumSq v < 1 / 10000)

/-- Python zip(*rows): transposes a table, truncating every column to the
    length of the shortest row (zip stops at the shortest iterable). -/
def pyZipStar (rows : List (List ℚ)) : List (List ℚ) :=
  match (rows.map List.length).min? with
  | none => []
  | some m => (List.range m).map (fun j => rows.map (fun r => r.getD j 0))

/-- The classification loop of identify_b0:
    for it in range(0, nt): append it to index_b0 if the predicate holds,
    else to index_dwi. -/
def classifyLoop (p : Nat → Bool) (nt : Nat) : List Nat × List Nat :=
  (List.range nt).foldl
    (fun acc it => if p it then (acc.1 ++ [it], acc.2) else (acc.1, acc.2 ++ [it]))
    ([], [])

/-- The table actually iterated over in the no-bvals branch: the bvecs rows,
    transposed first when the first row does not have exactly 3 entries
    (the source warns and runs bvecs = list(zip(*bvecs))). -/
def effectiveBvecs (bvecs : List (List ℚ)) : List (List ℚ) :=
  if (bvecs.headD []).length = 3 then bvecs else pyZipStar bvecs

/-- The index lists built by identify_b0 before the empty-b0 check.
    With a bvals table the loop runs over its length and tests
    bvals[it] < bval_min; without one it runs over the (possibly transposed)
    bvecs rows and tests the Euclidean-norm bound. -/
def classify_indices (bvals : Option (List ℚ)) (bvecs : List (List ℚ))
    (bval_min : ℚ) : List Nat × List Nat :=
  match bvals with
  | none =>
    let bv := effectiveBvecs bvecs
    classifyLoop (fun it => vecIsB0 (bv.getD it [])) bv.length
  | some bvals =>
    classifyLoop (fun it => decide (bvals.getD it 0 < bval_min)) bvals.length

/-- The diagnostic printed by identify_b0 when no b=0 frame is found. -/
def noB0Msg : String :=
  "ERROR: no b=0 images detected. Maybe you are using non-null low bvals? in that case use flag -bvalmin. Exit program."

/-- identify_b0: classify, then fail with exit status 2 and the diagnostic
    when index_b0 is empty; otherwise return
    (index_b0, index_dwi, nb_b0, nb_dwi). -/
def identify_b0 (bvals : Option (List ℚ)) (bvecs : List (List ℚ))
    (bval_min : ℚ) : Except (Nat × String) (List Nat × List Nat × Nat × Nat) :=
  let r := classify_indices bvals bvecs bval_min
  if r.1 = [] then
    .error (2, noB0Msg)
  else
    .ok (r.1, r.2, r.1.length, r.2.length)

/-! ### The classification loop is a filter over the index range -/

theorem foldl_classify (p : Nat → Bool) (l : List Nat) (a b : List Nat) :
    l.foldl
      (fun acc it => if p it then (acc.1 ++ [it], acc.2) else (acc.1, acc.2 ++ [it]))
      (a, b)
    = (a ++ l.filter p, b ++ l.filter (fun i => !p i)) := by
  induction l generalizing a b with
  | nil => simp
  | cons x xs ih =>
    by_cases hx : p x
    · simp [List.foldl_cons, hx, ih, List.filter_cons]
    · simp [List.foldl_cons, hx, ih, List.filter_cons]

theorem classifyLoop_eq (p : Nat → Bool) (nt : Nat) :
    classifyLoop p nt
      = ((List.range nt).filter p, (List.range nt).filter (fun i => !p i)) := by
  simpa using foldl_classify p (List.range nt) [] []

theorem mem_classifyLoop_fst (p : Nat → Bool) (nt i : Nat) :
    i ∈ (classifyLoop p nt).1 ↔ i < nt ∧ p i := by
  simp [classifyLoop_eq, List.mem_filter, List.mem_range]

theorem mem_classifyLoop_snd (p : Nat → Bool) (nt i : Nat) :
    i ∈ (classifyLoop p nt).2 ↔ i < nt ∧ ¬ p i := by
  simp [classifyLoop_eq, List.mem_filter, List.mem_range]

/-- Number of frames the classifier iterates over: the length of the bvals
    table when present, else the number of (possibly transposed) gradient
    rows. -/
def frameCount (bvals : Option (List ℚ)) (bvecs : List (List ℚ)) : Nat :=
  match bvals with
  | some bvals => bvals.length
  | none => (effectiveBvecs bvecs).length

/-- A well-formed N-by-3 table with at least one row passes the first-row
    length check, so no transposition happens. -/
theorem effectiveBvecs_of_wf (bvecs : List (List ℚ))
    (h3 : ∀ r ∈ bvecs, r.length = 3) (hne : bvecs ≠ []) :
    effectiveBvecs bvecs = bvecs := by
  unfold effectiveBvecs
  cases bvecs with
  | nil => exact absurd rfl hne
  | cons r rs => simp [h3 r (by simp)]

theorem classifyLoop_partitions (p : Nat → Bool) (nt i : Nat) :
    ((i ∈ (classifyLoop p nt).1 ∨ i ∈ (classifyLoop p nt).2) ↔ i < nt)
  ∧ ¬(i ∈ (classifyLoop p nt).1 ∧ i ∈ (classifyLoop p nt).2)
  ∧ (classifyLoop p nt).1.Nodup ∧ (classifyLoop p nt).2.Nodup := by
  refine ⟨?_, ?_, ?_, ?_⟩
  · simp only [mem_classifyLoop_fst, mem_classifyLoop_snd]
    by_cases hp : p i <;> simp [hp]
  · simp only [mem_classifyLoop_fst, mem_classifyLoop_snd]
    tauto
  · rw [classifyLoop_eq]
    exact List.Nodup.filter _ (List.nodup_range nt)
  · rw [classifyLoop_eq]
    exact List.Nodup.filter _ (List.nodup_range nt)

/-- C1: for every well-formed N-frame gradient table, with or without a
    b-value table, the two index lists exactly partition the frame indices
    0..N-1: an index is in one of the lists exactly when it is below N, no
    index is in both lists, and neither list repeats an index. -/
theorem classification_partitions (bvals : Option (List ℚ))
    (bvecs : List (List ℚ)) (bval_min : ℚ) (i : Nat)
    (h3 : ∀ r ∈ bvecs, r.length = 3) (hne : bvecs ≠ []) :
    ((i ∈ (classify_indices bvals bvecs bval_min).1 ∨
        i ∈ (classify_indices bvals bvecs bval_min).2) ↔
          i < frameCount bvals bvecs)
  ∧ ¬(i ∈ (classify_indices bvals bvecs bval_min).1 ∧
        i ∈ (classify_indices bvals bvecs bval_min).2)
  ∧ (classify_indices bvals bvecs bval_min).1.Nodup
  ∧ (classify_indices bvals bvecs bval_min).2.Nodup := by
  cases bvals with
  | none =>
    simpa [classify_indices, frameCount] using
      classifyLoop_partitions
        (fun it => vecIsB0 ((effectiveBvecs bvecs).getD it []))
        (effectiveBvecs bvecs).length i
  | some bv =>
    simpa [classify_indices, frameCount] using
      classifyLoop_partitions
        (fun it => decide (bv.getD it 0 < bval_min)) bv.length i

theorem classification_partitions_witness :
    ((1 ∈ (classify_indices none [[0,0,0],[1,0,0]] 100).1 ∨
        1 ∈ (classify_indices none [[0,0,0],[1,0,0]] 100).2) ↔
          1 < frameCount none [[0,0,0],[1,0,0]])
  ∧ ¬(1 ∈ (classify_indices none [[0,0,0],[1,0,0]] 100).1 ∧
        1 ∈ (classify_indices none [[0,0,0],[1,0,0]] 100).2)
  ∧ (classify_indices none [[0,0,0],[1,0,0]] 100).1.Nodup
  ∧ (classify_indices none [[0,0,0],[1,0,0]] 100).2.Nodup :=
  classification_partitions none [[0,0,0],[1,0,0]] 100 1
    (by decide) (by decide)

/-- C2: with a b-value table the classifier puts frame i in the b=0 list
    exactly when bvals[i] < threshold (strict), in the DWI list otherwise,
    and the result does not depend on the gradient table at all. -/
theorem bvals_branch_spec (bvals : List ℚ) (bvecs bvecs2 : List (List ℚ))
    (bval_min : ℚ) (i : Nat) (hi : i < bvals.length) :
    (i ∈ (classify_indices (some bvals) bvecs bval_min).1 ↔
        bvals.getD i 0 < bval_min)
  ∧ (i ∈ (classify_indices (some bvals) bvecs bval_min).2 ↔
        ¬ bvals.getD i 0 < bval_min)
  ∧ classify_indices (some bvals) bvecs bval_min
      = classify_indices (some bvals) bvecs2 bval_min := by
  refine ⟨?_, ?_, rfl⟩
  · simp [classify_indices, mem_classifyLoop_fst, hi]
  · simp [classify_indices, mem_classifyLoop_snd, hi]

theorem bvals_branch_spec_witness :
    ((0 ∈ (classify_indices (some [100, 99]) [[1,0,0]] 100).1 ↔
        [100, 99].getD 0 0 < (100 : ℚ))
  ∧ (0 ∈ (classify_indices (some [100, 99]) [[1,0,0]] 100).2 ↔
        ¬ [100, 99].getD 0 0 < (100 : ℚ))
  ∧ classify_indices (some [100, 99]) [[1,0,0]] 100
      = classify_indices (some [100, 99]) [[0,0,0],[0,0,0]] 100) :=
  bvals_branch_spec [100, 99] [[1,0,0]] [[0,0,0],[0,0,0]] 100 0 (by decide)

/-- The b=0 test of the no-bvals branch agrees with the strict comparison
    of the real Euclidean norm against the cutoff: for a positive cutoff c,
    sqrt of the sum of squares is below c exactly when the sum of squares is
    below c*c. -/
theorem sqrt_sumSq_lt_iff (v : List ℚ) (c : ℚ) (hc : 0 < c) :
    Real.sqrt ((sumSq v : ℝ)) < (c : ℝ) ↔ sumSq v < c * c := by
  rw [Real.sqrt_lt' (by exact_mod_cast hc), sq]
  exact_mod_cast Iff.rfl

/-- C3: without a b-value table the classifier puts frame i in the b=0 list
    exactly when the Euclidean norm of its gradient vector is strictly below
    0.01, in the DWI list otherwise. -/
theorem bvecs_branch_spec (bvecs : List (List ℚ)) (bval_min : ℚ) (i : Nat)
    (h3 : ∀ r ∈ bvecs, r.length = 3) (hne : bvecs ≠ [])
    (hi : i < bvecs.length) :
    (i ∈ (classify_indices none bvecs bval_min).1 ↔
        Real.sqrt ((sumSq (bvecs.getD i []) : ℝ)) < 1 / 100)
  ∧ (i ∈ (classify_indices none bvecs bval_min).2 ↔
        ¬ Real.sqrt ((sumSq (bvecs.getD i []) : ℝ)) < 1 / 100) := by
  have he := effectiveBvecs_of_wf bvecs h3 hne
  have hs : Real.sqrt ((sumSq (bvecs.getD i []) : ℝ)) < 1 / 100 ↔
      sumSq (bvecs.getD i []) < 1 / 10000 := by
    have h := sqrt_sumSq_lt_iff (bvecs.getD i []) (1 / 100) (by norm_num)
    rw [show (((1 : ℚ) / 100 : ℚ) : ℝ) = 1 / 100 by norm_num] at h
    rw [h]
    norm_num
  have hmem1 : i ∈ (classify_indices none bvecs bval_min).1 ↔
      sumSq (bvecs.getD i []) < 1 / 10000 := by
    simp only [classify_indices, he, mem_classifyLoop_fst, vecIsB0,
      decide_eq_true_eq]
    exact and_iff_right hi
  have hmem2 : i ∈ (classify_indices none bvecs bval_min).2 ↔
      ¬ sumSq (bvecs.getD i []) < 1 / 10000 := by
    simp only [classify_indices, he, mem_classifyLoop_snd, vecIsB0,
      decide_eq_true_eq]
    exact and_iff_right hi
  exact ⟨hmem1.trans hs.symm, hmem2.trans (not_congr hs.symm)⟩

theorem bvecs_branch_spec_witness :
    ((1 ∈ (classify_indices none [[1/100,0,0],[9999/1000000,0,0]] 100).1 ↔
        Real.sqrt ((sumSq ([[(1:ℚ)/100,0,0],[9999/1000000,0,0]].getD 1 []) : ℝ))
          < 1 / 100)
  ∧ (1 ∈ (classify_indices none [[1/100,0,0],[9999/1000000,0,0]] 100).2 ↔
        ¬ Real.sqrt ((sumSq ([[(1:ℚ)/100,0,0],[9999/1000000,0,0]].getD 1 []) : ℝ))
          < 1 / 100)) :=
  bvecs_branch_spec [[1/100,0,0],[9999/1000000,0,0]] 100 1
    (by decide) (by decide) (by decide)

/-- C4: both output index lists are strictly ascending, for every input:
    indices are appended in original acquisition order within each class. -/
theorem classification_sorted (bvals : Option (List ℚ))
    (bvecs : List (List ℚ)) (bval_min : ℚ) :
    (classify_indices bvals bvecs bval_min).1.Pairwise (· < ·)
  ∧ (classify_indices bvals bvecs bval_min).2.Pairwise (· < ·) := by
  have h : ∀ (p : Nat → Bool) (nt : Nat),
      (classifyLoop p nt).1.Pairwise (· < ·)
    ∧ (classifyLoop p nt).2.Pairwise (· < ·) := by
    intro p nt
    rw [classifyLoop_eq]
    exact ⟨(List.pairwise_lt_range nt).filter _,
           (List.pairwise_lt_range nt).filter _⟩
  cases bvals with
  | none => exact h _ _
  | some bv => exact h _ _

/-! ### Assembler -/

/-- Modelled from the spec: the frame-splitting and frame-concatenation
    collaborators (split_data and concat_data from sct_image) are not part
    of the source here; per the spec the assembler extracts, for each index
    in index_list in list order, the corresponding frame of the volume and
    concatenates them along the temporal axis.  A 4-D volume is modelled as
    the list of its 3-D frames; an out-of-range index yields none. -/
def assemble {α : Type} (volume : List α) (index_list : List Nat) :
    List (Option α) :=
  index_list.map (fun i => volume[i]?)

/-- C5: the assembled volume has exactly as many frames as the index list,
    and its k-th frame is frame index_list[k] of the source volume. -/
theorem assemble_spec {α : Type} (volume : List α) (index_list : List Nat)
    (k : Nat) (hk : k < index_list.length) :
    (assemble volume index_list).length = index_list.length
  ∧ (assemble volume index_list).getD k none
      = volume[index_list.getD k 0]? := by
  constructor
  · simp [assemble]
  · have hk2 : k < (assemble volume index_list).length := by
      simpa [assemble] using hk
    rw [List.getD_eq_getElem index_list 0 hk,
        List.getD_eq_getElem _ none hk2]
    simp [assemble]

theorem assemble_spec_witness :
    ((assemble [10,11,12,13,14,15] [2,0,5]).length = [2,0,5].length
  ∧ (assemble ([10,11,12,13,14,15] : List Nat) [2,0,5]).getD 1 none
      = [10,11,12,13,14,15][[2,0,5].getD 1 0]?) :=
  assemble_spec [10,11,12,13,14,15] [2,0,5] 1 (by decide)

/-- C6: when classification leaves the b=0 list empty, identify_b0 fails
    with exit status 2 (non-zero) and the no-b=0 diagnostic; when at least
    one frame is classified b=0, it returns the lists and their lengths and
    the error path is not taken. -/
theorem no_b0_fatal (bvals : Option (List ℚ)) (bvecs : List (List ℚ))
    (bval_min : ℚ) :
    ((classify_indices bvals bvecs bval_min).1 = [] →
        identify_b0 bvals bvecs bval_min = .error (2, noB0Msg)
      ∧ (2 : Nat) ≠ 0)
  ∧ ((classify_indices bvals bvecs bval_min).1 ≠ [] →
        identify_b0 bvals bvecs bval_min =
          .ok ((classify_indices bvals bvecs bval_min).1,
               (classify_indices bvals bvecs bval_min).2,
               (classify_indices bvals bvecs bval_min).1.length,
               (classify_indices bvals bvecs bval_min).2.length)) := by
  constructor
  · intro h
    exact ⟨by simp [identify_b0, h], by norm_num⟩
  · intro h
    simp [identify_b0, h]

theorem no_b0_fatal_witness :
    (identify_b0 none [[1,0,0]] 100 = .error (2, noB0Msg)
  ∧ (2 : Nat) ≠ 0) :=
  (no_b0_fatal none [[1,0,0]] 100).1
    (by norm_num [classify_indices, effectiveBvecs, classifyLoop, vecIsB0,
          sumSq, List.range_succ])

/-! ### Option handling in main and get_parser -/

/-- Default from Param: bval_min = 100. -/
def bval_min_default : ℚ := 100

/-- The bvalmin handling of main: if arguments.bvalmin then
    param.bval_min = arguments.bvalmin.  An absent option is None, which is
    falsy, and a supplied 0.0 is falsy too, so only a non-zero supplied
    value replaces the default. -/
def effective_bval_min (bvalmin : Option ℚ) : ℚ :=
  match bvalmin with
  | none => bval_min_default
  | some v => if v ≠ 0 then v else bval_min_default

/-- C9: a supplied threshold of exactly 0 is ignored and the default 100 is
    used, as when the option is absent; any non-zero supplied value
    replaces the default. -/
theorem bvalmin_zero_ignored (v : ℚ) (hv : v ≠ 0) :
    effective_bval_min (some 0) = 100
  ∧ effective_bval_min none = 100
  ∧ effective_bval_min (some v) = v := by
  refine ⟨rfl, rfl, ?_⟩
  simp [effective_bval_min, hv]

theorem bvalmin_zero_ignored_witness :
    (effective_bval_min (some 0) = 100
  ∧ effective_bval_min none = 100
  ∧ effective_bval_min (some 50) = 50) :=
  bvalmin_zero_ignored 50 (by norm_num)

/-- A parsed Python value of the -r option: either the int default or a
    string from the command line. -/
inductive PyVal where
  | intVal : Int → PyVal
  | strVal : String → PyVal
deriving DecidableEq

/-- Python equality between a parsed option value and an int literal:
    an int compares by value, a str compared to an int is always False. -/
def pyEqInt : PyVal → Int → Bool
  | .intVal n, m => decide (n = m)
  | .strVal _, _ => false

/-- Argparse behaviour for -r as configured in get_parser: choices are the
    strings 0 and 1, so an explicitly passed value parses to a str; the
    default is Param.remove_temp_files, the int 1.  none models an invalid
    choice, which argparse rejects before main runs. -/
def parse_r (arg : Option String) : Option PyVal :=
  match arg with
  | some s => if s = "0" ∨ s = "1" then some (.strVal s) else none
  | none => some (.intVal 1)

/-- The removal test of main, remove_temp_files == 1, applied to the parsed
    value of -r. -/
def remove_temp_decision (arg : Option String) : Option Bool :=
  (parse_r arg).map (fun v => pyEqInt v 1)

/-- C10: whenever -r is passed explicitly, with value 0 or 1, the parsed
    value is a string, the test remove_temp_files == 1 is false and the
    temporary folder is not removed; it is removed only when -r is omitted
    and the int default 1 applies. -/
theorem remove_temp_never_on_explicit (s : String) (hs : s = "0" ∨ s = "1") :
    remove_temp_decision (some s) = some false
  ∧ remove_temp_decision none = some true := by
  constructor
  · simp [remove_temp_decision, parse_r, hs, pyEqInt]
  · rfl

theorem remove_temp_never_on_explicit_witness :
    (remove_temp_decision (some "1") = some false
  ∧ remove_temp_decision none = some true) :=
  remove_temp_never_on_explicit "1" (Or.inr rfl)

/-! ### Transposition handling -/

theorem foldl_min_const (xs : List Nat) (n : Nat) (h : ∀ x ∈ xs, x = n) :
    xs.foldl min n = n := by
  induction xs with
  | nil => rfl
  | cons x rest ih =>
    rw [List.foldl_cons, h x (by simp), min_self]
    exact ih (fun y hy => h y (by simp [hy]))

theorem min?_const (l : List Nat) (n : Nat) (hne : l ≠ [])
    (h : ∀ x ∈ l, x = n) : l.min? = some n := by
  cases l with
  | nil => exact absurd rfl hne
  | cons x xs =>
    simp only [List.min?]
    rw [h x (by simp), foldl_min_const xs n (fun y hy => h y (by simp [hy]))]

/-- On a rectangular table whose rows all have length n, Python zip(*rows)
    produces the n columns. -/
theorem pyZipStar_of_rect (t : List (List ℚ)) (n : Nat)
    (h : ∀ r ∈ t, r.length = n) (hne : t ≠ []) :
    pyZipStar t
      = (List.range n).map (fun j => t.map (fun r => r.getD j 0)) := by
  have hm : (t.map List.length).min? = some n := by
    apply min?_const
    · simpa using hne
    · intro x hx
      obtain ⟨r, hr, rfl⟩ := List.mem_map.mp hx
      exact h r hr
  unfold pyZipStar
  rw [hm]

theorem map_range_getD (r : List ℚ) (n : Nat) (hr : r.length = n) :
    (List.range n).map (fun j => r.getD j 0) = r := by
  apply List.ext_getElem
  · simp [hr]
  · intro i h1 h2
    simp only [List.getElem_map, List.getElem_range]
    exact List.getD_eq_getElem r 0 h2

/-- Transposing a nonempty rectangular table twice gives the table back. -/
theorem pyZipStar_pyZipStar (t : List (List ℚ)) (n : Nat) (hn : 0 < n)
    (h : ∀ r ∈ t, r.length = n) (hne : t ≠ []) :
    pyZipStar (pyZipStar t) = t := by
  rw [pyZipStar_of_rect t n h hne]
  rw [pyZipStar_of_rect ((List.range n).map (fun j => t.map (fun r => r.getD j 0)))
        t.length ?_ ?_]
  · apply List.ext_getElem
    · simp
    · intro i h1 h2
      have hi : i < t.length := by simpa using h2
      simp only [List.getElem_map, List.getElem_range, List.map_map]
      have hfun : ((fun r => List.getD r i 0) ∘ fun j => t.map (fun r => r.getD j 0))
          = fun j => (t.getD i []).getD j 0 := by
        funext j
        simp only [Function.comp]
        have hi2 : i < (t.map (fun r => r.getD j 0)).length := by simpa using hi
        rw [List.getD_eq_getElem _ 0 hi2, List.getElem_map,
            List.getD_eq_getElem t [] hi]
      rw [hfun, map_range_getD _ n (h _ (by rw [List.getD_eq_getElem t [] hi]; exact List.getElem_mem hi))]
      exact List.getD_eq_getElem t [] hi
  · intro r hr
    obtain ⟨j, hj, rfl⟩ := List.mem_map.mp hr
    simp
  · intro hcon
    rw [List.map_eq_nil_iff, List.range_eq_nil] at hcon
    omega

/-- C7 counterexample: for the 3-frame table [[0,0,0],[1,0,0],[0,0,0]] the
    transposed, 3xN stored form also has rows of length 3, so it is not
    detected and is classified as-is, giving a different result than the
    N-by-3 form. -/
theorem transpose_three_frames_counterexample :
    classify_indices none (pyZipStar [[0,0,0],[1,0,0],[0,0,0]]) 100
      ≠ classify_indices none [[0,0,0],[1,0,0],[0,0,0]] 100 := by
  norm_num [classify_indices, effectiveBvecs, pyZipStar, classifyLoop,
    vecIsB0, sumSq, List.range_succ]

/-- C7 amended: for every well-formed N-by-3 gradient table with N not
    equal to 3, the 3xN stored form is detected (its first row has length
    N, not 3) and transposed back, so it yields exactly the classification
    of the N-by-3 form; for N = 3 the stored form is indistinguishable from
    an N-by-3 table and is classified as-is. -/
theorem transpose_detected_when_not_three (t : List (List ℚ)) (bval_min : ℚ)
    (h3 : ∀ r ∈ t, r.length = 3) (hne : t ≠ []) (hN : t.length ≠ 3) :
    classify_indices none (pyZipStar t) bval_min
      = classify_indices none t bval_min := by
  have hz := pyZipStar_of_rect t 3 h3 hne
  have hzz := pyZipStar_pyZipStar t 3 (by norm_num) h3 hne
  have hhead : ((pyZipStar t).headD []).length = t.length := by
    rw [hz, show List.range 3 = [0, 1, 2] from rfl]
    simp
  have heff : effectiveBvecs (pyZipStar t) = t := by
    unfold effectiveBvecs
    rw [if_neg (by rw [hhead]; exact hN), hzz]
  have heff2 : effectiveBvecs t = t := effectiveBvecs_of_wf t h3 hne
  simp only [classify_indices, heff, heff2]

theorem transpose_detected_witness :
    classify_indices none (pyZipStar [[0,0,0],[1,0,0]]) 100
      = classify_indices none [[0,0,0],[1,0,0]] 100 :=
  transpose_detected_when_not_three [[0,0,0],[1,0,0]] 100
    (by decide) (by decide) (by decide)

/-- C8 counterexample: in the table [[0,0,0],[1,0]] the second gradient
    vector has only 2 components after transposition handling (the first
    row has 3 components, so nothing is transposed), yet identify_b0 does
    not fail: it silently classifies the malformed row as DWI by its norm
    and returns normally. -/
theorem malformed_row_no_error :
    identify_b0 none [[0,0,0],[1,0]] 100 = .ok ([0], [1], 1, 1) := by
  norm_num [identify_b0, classify_indices, effectiveBvecs, classifyLoop,
    vecIsB0, sumSq, List.range_succ]

/-- C8 amended: the classifier performs no per-row arity validation: when
    the first row has 3 components, so no transposition happens, every row,
    also one without exactly 3 components, is silently classified by the
    norm test, and every frame index still lands in one of the two lists. -/
theorem malformed_rows_classified (bvecs : List (List ℚ)) (bval_min : ℚ)
    (i : Nat) (hhead : (bvecs.headD []).length = 3) (hi : i < bvecs.length) :
    (i ∈ (classify_indices none bvecs bval_min).1 ↔
        sumSq (bvecs.getD i []) < 1 / 10000)
  ∧ (i ∈ (classify_indices none bvecs bval_min).1 ∨
        i ∈ (classify_indices none bvecs bval_min).2) := by
  have he : effectiveBvecs bvecs = bvecs := by
    unfold effectiveBvecs
    rw [if_pos hhead]
  constructor
  · simp only [classify_indices, he, mem_classifyLoop_fst, vecIsB0,
      decide_eq_true_eq]
    exact and_iff_right hi
  · simp only [classify_indices, he, mem_classifyLoop_fst,
      mem_classifyLoop_snd]
    by_cases hb : vecIsB0 (bvecs.getD i []) <;> simp [hb, hi]

theorem malformed_rows_classified_witness :
    ((1 ∈ (classify_indices none [[0,0,0],[1,0]] 100).1 ↔
        sumSq (([[0,0,0],[1,0]] : List (List ℚ)).getD 1 []) < 1 / 10000)
  ∧ (1 ∈ (classify_indices none [[0,0,0],[1,0]] 100).1 ∨
        1 ∈ (classify_indices none [[0,0,0],[1,0]] 100).2)) :=
  malformed_rows_classified [[0,0,0],[1,0]] 100 1 (by decide) (by decide)

end SctDmriSeparate
